import Mathlib

/-!
Verification of the devstuff command-line tool's input-resolution and dispatch core.

Shallow embedding of `src/main.rs`. Rust strings are UTF-8 byte sequences, so all
input/output data is modelled as `List Nat` (each element a byte value < 256).
Standard input is modelled as `Option (List Nat)`: `none` means `atty::is(Stdin)`
returned `true` (interactive terminal, nothing piped); `some d` means standard input
is non-interactive and holds exactly the bytes `d`.

A run of a leaf action is modelled as a pair: the list of lines printed to standard
output by `println!` (each entry one `println!` call, the trailing newline implicit)
together with the `anyhow::Result<()>` outcome.

External crates invoked by the program (minify, serde_json, crypto-hash, blake3,
uuid) are modelled either abstractly (fields of `Externals`) or, where a claim needs
their concrete behaviour (the base64 codec, UTF-8 validation, UUID formatting), by
a direct model of the crate's documented algorithm, noted on each definition.
-/

namespace Devstuff

/-- The UTF-8 bytes of an ASCII string literal (for ASCII text, the UTF-8 encoding
is one byte per character, equal to the code point). Used to write the program's
literal strings as byte lists. -/
def asciiBytes (s : String) : List Nat :=
  s.data.map Char.toNat

/-- Every element is a byte value. Rust's `u8` guarantees this for the buffers the
program handles. -/
def IsBytes (bs : List Nat) : Prop :=
  ∀ b ∈ bs, b < 256

/-- A UTF-8 continuation byte: `10xxxxxx`. -/
def isCont (b : Nat) : Bool :=
  128 ≤ b && b < 192

/-- Models the UTF-8 validity check performed by Rust's `String::from_utf8`
(external, `std`): shortest-form encodings only, surrogates and code points above
`0x10FFFF` rejected. -/
def validUtf8 : List Nat → Bool
  | [] => true
  | b :: rest =>
    if b < 128 then validUtf8 rest
    else if b < 194 then false
    else if b < 224 then
      match rest with
      | b1 :: rest2 => isCont b1 && validUtf8 rest2
      | [] => false
    else if b < 240 then
      match rest with
      | b1 :: b2 :: rest2 =>
        isCont b1 && isCont b2 &&
          (decide (b ≠ 224) || decide (160 ≤ b1)) &&
          (decide (b ≠ 237) || decide (b1 < 160)) &&
          validUtf8 rest2
      | _ => false
    else if b < 245 then
      match rest with
      | b1 :: b2 :: b3 :: rest2 =>
        isCont b1 && isCont b2 && isCont b3 &&
          (decide (b ≠ 240) || decide (144 ≤ b1)) &&
          (decide (b ≠ 244) || decide (b1 < 144)) &&
          validUtf8 rest2
      | _ => false
    else false

/-- The standard base64 alphabet (RFC 4648), as used by the external `base64`
crate's default `STANDARD` configuration: sextet value to ASCII byte. -/
def b64AlphaNat (n : Nat) : Nat :=
  if n < 26 then 65 + n
  else if n < 52 then 97 + (n - 26)
  else if n < 62 then 48 + (n - 52)
  else if n = 62 then 43
  else 47

/-- Inverse of the standard base64 alphabet: ASCII byte to sextet value, `none`
for bytes outside the alphabet. -/
def b64Val (c : Nat) : Option Nat :=
  if 65 ≤ c ∧ c ≤ 90 then some (c - 65)
  else if 97 ≤ c ∧ c ≤ 122 then some (c - 97 + 26)
  else if 48 ≤ c ∧ c ≤ 57 then some (c - 48 + 52)
  else if c = 43 then some 62
  else if c = 47 then some 63
  else none

/-- Models `base64::encode` (external crate, standard alphabet with `=` padding):
bytes in groups of three become four alphabet bytes; a final group of one or two
bytes is padded with `==` or `=`. `61` is the ASCII code of `=`. -/
def b64EncodeBytes : List Nat → List Nat
  | [] => []
  | [a] => [b64AlphaNat (a / 4), b64AlphaNat (a % 4 * 16), 61, 61]
  | [a, b] => [b64AlphaNat (a / 4), b64AlphaNat (a % 4 * 16 + b / 16),
      b64AlphaNat (b % 16 * 4), 61]
  | a :: b :: c :: rest =>
    b64AlphaNat (a / 4) :: b64AlphaNat (a % 4 * 16 + b / 16) ::
      b64AlphaNat (b % 16 * 4 + c / 64) :: b64AlphaNat (c % 64) :: b64EncodeBytes rest

/-- Models `base64::decode` (external crate, standard alphabet, padded, strict):
input is consumed in groups of four bytes; `=` padding is allowed only at the end
and non-canonical trailing bits are rejected, as the crate's default configuration
does. Returns `none` on any malformed input. -/
def b64DecodeBytes : List Nat → Option (List Nat)
  | [] => some []
  | c1 :: c2 :: c3 :: c4 :: rest =>
    match b64Val c1, b64Val c2 with
    | some s1, some s2 =>
      if c3 = 61 then
        if c4 = 61 ∧ rest = [] ∧ s2 % 16 = 0 then some [s1 * 4 + s2 / 16] else none
      else
        match b64Val c3 with
        | some s3 =>
          if c4 = 61 then
            if rest = [] ∧ s3 % 4 = 0 then
              some [s1 * 4 + s2 / 16, s2 % 16 * 16 + s3 / 4]
            else none
          else
            match b64Val c4 with
            | some s4 =>
              match b64DecodeBytes rest with
              | some bs =>
                some ((s1 * 4 + s2 / 16) :: (s2 % 16 * 16 + s3 / 4) :: (s3 % 4 * 64 + s4) :: bs)
              | none => none
            | none => none
        | none => none
    | _, _ => none
  | _ => none

/-- Lowercase hexadecimal digit as an ASCII byte (`0`–`9`, `a`–`f`). -/
def hexDigitChar (n : Nat) : Nat :=
  if n < 10 then 48 + n else 87 + n

/-- Two lowercase hex digits for one byte. -/
def byteHex (b : Nat) : List Nat :=
  [hexDigitChar (b / 16 % 16), hexDigitChar (b % 16)]

/-- Models the external `uuid` crate's `Uuid::new_v4` followed by `Display`: given
the sixteen random bytes drawn from the OS, force the version nibble of byte 6 to
`4` and the two variant bits of byte 8 to `10`, then render as lowercase
hyphenated hex in 8-4-4-4-12 groups. `45` is the ASCII code of `-`. -/
def uuidV4Bytes (r : List Nat) : List Nat :=
  let b : Nat → Nat := fun i => r.getD i 0 % 256
  byteHex (b 0) ++ byteHex (b 1) ++ byteHex (b 2) ++ byteHex (b 3) ++ 45 ::
    (byteHex (b 4) ++ byteHex (b 5) ++ 45 ::
      (byteHex (b 6 % 16 + 64) ++ byteHex (b 7) ++ 45 ::
        (byteHex (b 8 % 64 + 128) ++ byteHex (b 9) ++ 45 ::
          (byteHex (b 10) ++ byteHex (b 11) ++ byteHex (b 12) ++ byteHex (b 13) ++
            byteHex (b 14) ++ byteHex (b 15)))))

/-- Models the loop over `stdin.lock().lines()` in `for_input`: Rust's
`BufRead::lines` reads up to and including each `\n` (byte `10`), strips that
`\n` and then one preceding `\r` (byte `13`) if present; a final chunk not
terminated by `\n` is returned as a line with no stripping; at end of input the
iterator stops. `acc` holds the bytes of the current line in reverse.

(`lines` additionally requires each line to be valid UTF-8; on a line read
failure the source calls `.expect`, aborting the whole process, so no value is
produced at all in that case and it is outside this model.) -/
def linesGo : List Nat → List Nat → List (List Nat)
  | acc, [] => if acc.isEmpty then [] else [acc.reverse]
  | acc, b :: rest =>
    if b = 10 then
      (if acc.head? = some 13 then acc.tail else acc).reverse :: linesGo [] rest
    else
      linesGo (b :: acc) rest

/-- The list of lines `for_input` collects from piped standard input bytes. -/
def rustLines (d : List Nat) : List (List Nat) :=
  linesGo [] d

/-- Models `Vec::join("\n")` on the collected lines. -/
def joinLF : List (List Nat) → List Nat
  | [] => []
  | [l] => l
  | l :: ls => l ++ 10 :: joinLF ls

/-- The resolved input text when standard input is piped: `lines.join("\n")`. -/
def resolvePiped (d : List Nat) : List Nat :=
  joinLF (rustLines d)

/-- An `anyhow::Error` as the program builds them: a root cause, possibly wrapped
in `.context(...)` layers. Messages are byte lists (UTF-8 text). -/
inductive AppError where
  /-- The `std::io::Error` produced by a failed `std::fs::read_to_string`. -/
  | ioError : AppError
  /-- An error built with `anyhow::anyhow!(msg)`. -/
  | anyhowMsg (msg : List Nat) : AppError
  /-- A `base64::DecodeError` converted by the `?` operator. -/
  | base64DecodeError : AppError
  /-- A `std::string::FromUtf8Error` converted by the `?` operator. -/
  | fromUtf8Error : AppError
  /-- A `serde_json::Error` from `serde_json::from_str`. -/
  | jsonParseError (msg : List Nat) : AppError
  /-- `err.context(ctx)`: `ctx` wrapped around the inner error. -/
  | withContext (ctx : List Nat) (inner : AppError) : AppError
  deriving DecidableEq

/-- The observable outcome of running one leaf action: the `println!` lines sent
to standard output (in order, trailing newlines implicit), and the
`anyhow::Result<()>` value. -/
abbrev Run := List (List Nat) × Except AppError Unit

/-- The process-level handler of `anyhow`: exit code 0 when `main` returns `Ok`,
non-zero (1) when it returns `Err` (the error chain goes to standard error). -/
def exitCode (r : Run) : Nat :=
  match r.2 with
  | .ok _ => 0
  | .error _ => 1

/-- Models `Result::context`: on `Ok` unchanged, on `Err` wrap the error with a context
label. The standard output already produced is unaffected. -/
def addContext (ctx : List Nat) : Run → Run
  | (out, .ok u) => (out, .ok u)
  | (out, .error e) => (out, .error (.withContext ctx e))

/-- The `InputSource` clap args struct: optional positional value (a file name or
raw input) and the `--raw` flag. The positional value is a Rust `String`,
modelled as its bytes. -/
structure InputSource where
  input : Option (List Nat)
  raw : Bool

/-- The `crypto_hash::Algorithm` enum (external crate), as referenced by `hash`. -/
inductive Algorithm where
  | MD5 | SHA1 | SHA256 | SHA512
  deriving DecidableEq

/-- The external transform providers the program delegates to, abstract where no
claim depends on their internals. `J` is the type of parsed `serde_json::Value`s.
`uuidRandomBytes` is the sequence of sixteen random bytes the OS hands
`Uuid::new_v4` during this run. -/
structure Externals (J : Type) where
  htmlMinify : List Nat → List Nat
  jsonMinify : List Nat → List Nat
  jsonFromStr : List Nat → Except (List Nat) J
  jsonToStringPretty : J → List Nat
  hexDigest : Algorithm → List Nat → List Nat
  blake3Hex : List Nat → List Nat
  uuidRandomBytes : List Nat

/-- The closure passed to `for_input` by `html minify`:
`println!("{}", minify::html::minify(&input))`, always `Ok`. -/
def htmlMinifyRun {J : Type} (ext : Externals J) (input : List Nat) : Run :=
  ([ext.htmlMinify input], .ok ())

/-- The closure passed to `for_input` by `json minify`:
`println!("{}", minify::json::minify(&input))`, always `Ok`. -/
def jsonMinifyRun {J : Type} (ext : Externals J) (input : List Nat) : Run :=
  ([ext.jsonMinify input], .ok ())

/-- The closure passed to `for_input` by `json unminify`: parse with
`serde_json::from_str` under context `"Parse Valid JSON"`, then print the
pretty-printed rendering (`to_string_pretty(..).unwrap()` cannot fail). The
`?` runs before the `println!`, so a parse failure prints nothing. -/
def jsonUnminifyRun {J : Type} (ext : Externals J) (input : List Nat) : Run :=
  match ext.jsonFromStr input with
  | .error e =>
    ([], .error (.withContext (asciiBytes "Parse Valid JSON") (.jsonParseError e)))
  | .ok v => ([ext.jsonToStringPretty v], .ok ())

/-- The closure passed to `for_input` by `b64 encode`:
`println!("{}", base64::encode(input))`, always `Ok`. -/
def b64EncodeRun (input : List Nat) : Run :=
  ([b64EncodeBytes input], .ok ())

/-- The closure passed to `for_input` by `b64 decode`:
`println!("{:}", String::from_utf8(base64::decode(input)?)?)`. Both `?` operators
run before the `println!`, so a decode or UTF-8 failure prints nothing. -/
def b64DecodeRun (input : List Nat) : Run :=
  match b64DecodeBytes input with
  | none => ([], .error .base64DecodeError)
  | some bytes =>
    if validUtf8 bytes then ([bytes], .ok ()) else ([], .error .fromUtf8Error)

/-- The closure passed to `for_input` by `hash blake3`:
`println!("{}", blake3::hash(input.as_bytes()).to_hex())`, always `Ok`. -/
def blake3Run {J : Type} (ext : Externals J) (input : List Nat) : Run :=
  ([ext.blake3Hex input], .ok ())

/-- The message `format!("Reading from file '{0}', if this is raw input then
specify --raw flag", input)` used as context on a failed file read. -/
def fileReadMsg (path : List Nat) : List Nat :=
  asciiBytes "Reading from file '" ++ path ++
    asciiBytes "', if this is raw input then specify --raw flag"

/-- The message of the `anyhow!` error raised when there is no input source. -/
def noInputSourceMsg : List Nat :=
  asciiBytes "Not input source found. You can either pipe the input or specify a file or plaintext"

/-- Models `fn for_input(is, f)`, the input resolver. `stdinPiped = none` models
`atty::is(atty::Stream::Stdin) = true` (interactive terminal); `some d` models a
non-interactive standard input holding bytes `d`. `fs` models the file system:
`std::fs::read_to_string` succeeds with `some contents` or fails (missing file,
unreadable, invalid UTF-8) with `none`, in which case the `io` error is wrapped
with the `fileReadMsg` context. -/
def for_input (stdinPiped : Option (List Nat)) (fs : List Nat → Option (List Nat))
    (is : InputSource) (f : List Nat → Run) : Run :=
  match stdinPiped with
  | none =>
    match is.input with
    | some input =>
      if is.raw then f input
      else
        match fs input with
        | some lines => f lines
        | none => ([], .error (.withContext (fileReadMsg input) .ioError))
    | none =>
      ([asciiBytes "nothing; to do here!"], .error (.anyhowMsg noInputSourceMsg))
  | some piped => f (resolvePiped piped)

/-- Models `fn hash(is, algo, name)`: run the digest-printing closure through
`for_input` and wrap failures with context `format!("{0} Hash", name)`. -/
def hash {J : Type} (ext : Externals J) (stdinPiped : Option (List Nat))
    (fs : List Nat → Option (List Nat)) (is : InputSource) (algo : Algorithm)
    (name : List Nat) : Run :=
  addContext (name ++ asciiBytes " Hash")
    (for_input stdinPiped fs is (fun input => ([ext.hexDigest algo input], .ok ())))

/-- The `HtmlAction` subcommand enum. -/
inductive HtmlAction where
  | minify (is : InputSource) : HtmlAction

/-- The `JsonAction` subcommand enum. -/
inductive JsonAction where
  | minify (is : InputSource) : JsonAction
  | unminify (is : InputSource) : JsonAction

/-- The `Base64Action` subcommand enum. -/
inductive Base64Action where
  | encode (is : InputSource) : Base64Action
  | decode (is : InputSource) : Base64Action

/-- The `HashAction` subcommand enum. -/
inductive HashAction where
  | md5 (is : InputSource) : HashAction
  | sha1 (is : InputSource) : HashAction
  | sha256 (is : InputSource) : HashAction
  | sha512 (is : InputSource) : HashAction
  | blake3 (is : InputSource) : HashAction

/-- The `ToolType` enum: the command tree after clap parsing. The wrapper structs
`HtmlArg`/`JsonArg`/`Base64Arg`/`HashArg` hold nothing but the nested action and
are flattened away. `uuid` carries no `InputSource`. -/
inductive ToolType where
  | html (a : HtmlAction) : ToolType
  | json (a : JsonAction) : ToolType
  | b64 (a : Base64Action) : ToolType
  | hash (a : HashAction) : ToolType
  | uuid : ToolType

/-- Models `fn main` after argument parsing: dispatch on the command tree, wiring each
leaf's `InputSource` and closure through `for_input` and wrapping failures with
the action's context label (the `.context(...)` calls in the source). -/
def main {J : Type} (ext : Externals J) (stdinPiped : Option (List Nat))
    (fs : List Nat → Option (List Nat)) : ToolType → Run
  | .html (.minify is) =>
    addContext (asciiBytes "Minify HTML") (for_input stdinPiped fs is (htmlMinifyRun ext))
  | .json (.minify is) =>
    addContext (asciiBytes "Minify JSON") (for_input stdinPiped fs is (jsonMinifyRun ext))
  | .json (.unminify is) =>
    addContext (asciiBytes "Minify JSON") (for_input stdinPiped fs is (jsonUnminifyRun ext))
  | .b64 (.encode is) =>
    addContext (asciiBytes "Base64 Encoding") (for_input stdinPiped fs is b64EncodeRun)
  | .b64 (.decode is) =>
    addContext (asciiBytes "Base64 Decoding") (for_input stdinPiped fs is b64DecodeRun)
  | .hash (.md5 is) => hash ext stdinPiped fs is .MD5 (asciiBytes "MD5")
  | .hash (.sha1 is) => hash ext stdinPiped fs is .SHA1 (asciiBytes "SHA1")
  | .hash (.sha256 is) => hash ext stdinPiped fs is .SHA256 (asciiBytes "SHA256")
  | .hash (.sha512 is) => hash ext stdinPiped fs is .SHA512 (asciiBytes "SHA512")
  | .hash (.blake3 is) =>
    addContext (asciiBytes "Blake3 Hash") (for_input stdinPiped fs is (blake3Run ext))
  | .uuid => ([uuidV4Bytes ext.uuidRandomBytes], .ok ())

/-- Concrete instantiation of the external providers, used by witnesses: the JSON
parser always fails, the other providers are irrelevant stubs. -/
def failingExternals : Externals Unit where
  htmlMinify := id
  jsonMinify := id
  jsonFromStr := fun _ => .error (asciiBytes "expected value")
  jsonToStringPretty := fun _ => []
  hexDigest := fun _ _ => []
  blake3Hex := fun _ => []
  uuidRandomBytes := []

/-- Claim C1: with piped standard input, `for_input` hands the transform exactly
the piped lines joined with newline bytes, whatever positional value and `raw`
flag were supplied; in particular the result coincides with the one for no
positional value at all. -/
theorem c1_piped_input_wins (f : List Nat → Run) (fs : List Nat → Option (List Nat))
    (d value : List Nat) (raw : Bool) :
    for_input (some d) fs ⟨some value, raw⟩ f = f (joinLF (rustLines d)) ∧
    for_input (some d) fs ⟨some value, raw⟩ f = for_input (some d) fs ⟨none, false⟩ f :=
  ⟨rfl, rfl⟩

/-- Claim C2: with an interactive terminal, a positional value and `raw = true`,
`for_input` hands the transform the value verbatim — unmodified, and without
consulting the file system (the result does not depend on `fs`). -/
theorem c2_raw_value_verbatim (f : List Nat → Run) (fs : List Nat → Option (List Nat))
    (v : List Nat) :
    for_input none fs ⟨some v, true⟩ f = f v :=
  rfl

/-- Claim C3: with an interactive terminal, a positional value and `raw = false`,
the value is used as a file path; when the read fails, `for_input` fails with the
file-read error (the `io` error wrapped in the `fileReadMsg` context), prints
nothing, never invokes the transform (the result does not depend on `f`), and the
context message suggests supplying `--raw`. -/
theorem c3_file_read_error (f : List Nat → Run) (fs : List Nat → Option (List Nat))
    (v : List Nat) (h : fs v = none) :
    for_input none fs ⟨some v, false⟩ f =
      ([], .error (.withContext (fileReadMsg v) .ioError)) ∧
    List.IsInfix (asciiBytes "--raw") (fileReadMsg v) := by
  constructor
  · simp [for_input, h]
  · refine ⟨asciiBytes "Reading from file '" ++ v ++
      asciiBytes "', if this is raw input then specify ", asciiBytes " flag", ?_⟩
    have hsplit : asciiBytes "', if this is raw input then specify --raw flag" =
        asciiBytes "', if this is raw input then specify " ++ asciiBytes "--raw" ++
          asciiBytes " flag" := by decide
    rw [fileReadMsg, hsplit]
    simp [List.append_assoc]

/-- Witness for C3 at a concrete missing file. -/
theorem c3_file_read_error_witness :
    for_input none (fun _ => none) ⟨some (asciiBytes "input.txt"), false⟩
        (fun _ => ([], .ok ())) =
      ([], .error (.withContext (fileReadMsg (asciiBytes "input.txt")) .ioError)) ∧
    List.IsInfix (asciiBytes "--raw") (fileReadMsg (asciiBytes "input.txt")) :=
  c3_file_read_error (fun _ => ([], .ok ())) (fun _ => none) (asciiBytes "input.txt") rfl

/-- Claim C4: with an interactive terminal and no positional value, `for_input`
prints exactly one informational line and fails with the no-input-source error;
the transform is never invoked (the result does not depend on `f`). -/
theorem c4_no_input_source (f : List Nat → Run) (fs : List Nat → Option (List Nat))
    (raw : Bool) :
    for_input none fs ⟨none, raw⟩ f =
      ([asciiBytes "nothing; to do here!"], .error (.anyhowMsg noInputSourceMsg)) :=
  rfl

/-- Claim C7: an empty pipe (zero lines on non-interactive standard input)
resolves successfully to the empty string, and the transform is invoked on it. -/
theorem c7_empty_pipe_empty_string (f : List Nat → Run)
    (fs : List Nat → Option (List Nat)) (is : InputSource) :
    for_input (some []) fs is f = f [] ∧ joinLF (rustLines []) = [] :=
  ⟨rfl, rfl⟩

/-- Claim C5 (code bug): the `json unminify` arm wraps its errors in the context
label `"Minify JSON"` — the very label of the `json minify` arm, shown failing
alongside — so the label does not identify the unminify action; the labelled
error still propagates to a non-zero exit. -/
theorem c5_unminify_label_bug :
    main failingExternals (some (asciiBytes "not json")) (fun _ => none)
        (.json (.unminify ⟨none, false⟩)) =
      ([], .error (.withContext (asciiBytes "Minify JSON")
        (.withContext (asciiBytes "Parse Valid JSON")
          (.jsonParseError (asciiBytes "expected value"))))) ∧
    main failingExternals none (fun _ => none)
        (.json (.minify ⟨some (asciiBytes "f.json"), false⟩)) =
      ([], .error (.withContext (asciiBytes "Minify JSON")
        (.withContext (fileReadMsg (asciiBytes "f.json")) .ioError))) ∧
    exitCode (main failingExternals (some (asciiBytes "not json")) (fun _ => none)
      (.json (.unminify ⟨none, false⟩))) = 1 :=
  ⟨rfl, rfl, rfl⟩

/-- Claim C6: the two fallible transforms print nothing when they fail — `b64
decode` on invalid base64 or non-UTF-8 decoded bytes, and `json unminify` on
unparseable input — and `"not-base64!!"` concretely makes `b64 decode` fail with
no output. -/
theorem c6_failed_transform_prints_nothing :
    (∀ (input out : _) (e : AppError), b64DecodeRun input = (out, .error e) → out = []) ∧
    (∀ (J : Type) (ext : Externals J) (input out : _) (e : AppError),
      jsonUnminifyRun ext input = (out, .error e) → out = []) ∧
    b64DecodeRun (asciiBytes "not-base64!!") = ([], .error .base64DecodeError) := by
  refine ⟨?_, ?_, rfl⟩
  · intro input out e h
    unfold b64DecodeRun at h
    split at h
    · injection h with h1 h2
      exact h1.symm
    · split at h
      · injection h with h1 h2
        exact Except.noConfusion h2
      · injection h with h1 h2
        exact h1.symm
  · intro J ext input out e h
    unfold jsonUnminifyRun at h
    split at h
    · injection h with h1 h2
      exact h1.symm
    · injection h with h1 h2
      exact Except.noConfusion h2

/-- Witness for C6: both atomicity statements applied at concrete failing inputs. -/
theorem c6_failed_transform_prints_nothing_witness :
    (b64DecodeRun (asciiBytes "not-base64!!")).1 = [] ∧
    (jsonUnminifyRun failingExternals (asciiBytes "not json")).1 = [] :=
  ⟨c6_failed_transform_prints_nothing.1 (asciiBytes "not-base64!!")
      (b64DecodeRun (asciiBytes "not-base64!!")).1 .base64DecodeError rfl,
    c6_failed_transform_prints_nothing.2.1 Unit failingExternals (asciiBytes "not json")
      (jsonUnminifyRun failingExternals (asciiBytes "not json")).1
      (.withContext (asciiBytes "Parse Valid JSON")
        (.jsonParseError (asciiBytes "expected value"))) rfl⟩

/-- Claim C8: the `uuid` subcommand carries no `InputSource`; for every state of
standard input and the file system it succeeds (exit code 0), consults neither,
and prints exactly one line: the freshly generated version-4 UUID (36 bytes,
hyphens at offsets 8, 13, 18, 23, version nibble `4` at offset 14, variant digit
at offset 19 one of `8`, `9`, `a`, `b`). -/
theorem c8_uuid_no_input (J : Type) (ext : Externals J)
    (stdinPiped : Option (List Nat)) (fs : List Nat → Option (List Nat)) :
    main ext stdinPiped fs .uuid = ([uuidV4Bytes ext.uuidRandomBytes], .ok ()) ∧
    exitCode (main ext stdinPiped fs .uuid) = 0 ∧
    ∀ r : List Nat,
      (uuidV4Bytes r).length = 36 ∧
      (uuidV4Bytes r).getD 8 0 = 45 ∧ (uuidV4Bytes r).getD 13 0 = 45 ∧
      (uuidV4Bytes r).getD 18 0 = 45 ∧ (uuidV4Bytes r).getD 23 0 = 45 ∧
      (uuidV4Bytes r).getD 14 0 = 52 ∧
      ((uuidV4Bytes r).getD 19 0 = 56 ∨ (uuidV4Bytes r).getD 19 0 = 57 ∨
        (uuidV4Bytes r).getD 19 0 = 97 ∨ (uuidV4Bytes r).getD 19 0 = 98) := by
  refine ⟨rfl, rfl, fun r => ⟨rfl, rfl, rfl, rfl, rfl, ?_, ?_⟩⟩
  · have h14 : (uuidV4Bytes r).getD 14 0 =
        hexDigitChar ((r.getD 6 0 % 256 % 16 + 64) / 16 % 16) := rfl
    have harg : (r.getD 6 0 % 256 % 16 + 64) / 16 % 16 = 4 := by omega
    rw [h14, harg]
    rfl
  · have h19 : (uuidV4Bytes r).getD 19 0 =
        hexDigitChar ((r.getD 8 0 % 256 % 64 + 128) / 16 % 16) := rfl
    have harg : (r.getD 8 0 % 256 % 64 + 128) / 16 % 16 = 8 ∨
        (r.getD 8 0 % 256 % 64 + 128) / 16 % 16 = 9 ∨
        (r.getD 8 0 % 256 % 64 + 128) / 16 % 16 = 10 ∨
        (r.getD 8 0 % 256 % 64 + 128) / 16 % 16 = 11 := by omega
    rw [h19]
    rcases harg with h | h | h | h <;> rw [h] <;> simp [hexDigitChar]

/-- Decoding the base64 alphabet inverts encoding, for every sextet value. -/
theorem b64Val_b64AlphaNat : ∀ n < 64, b64Val (b64AlphaNat n) = some n := by
  decide

/-- No sextet value encodes to the padding byte `=` (61). -/
theorem b64AlphaNat_ne_61 : ∀ n < 64, b64AlphaNat n ≠ 61 := by
  decide

/-- Base64 decoding inverts base64 encoding on every byte sequence. -/
theorem b64_decode_encode : ∀ bs : List Nat, IsBytes bs →
    b64DecodeBytes (b64EncodeBytes bs) = some bs
  | [], _ => rfl
  | [a], h => by
    have ha : a < 256 := h a (by simp)
    have h1 := b64Val_b64AlphaNat (a / 4) (by omega)
    have h2 := b64Val_b64AlphaNat (a % 4 * 16) (by omega)
    have h3 : a % 4 * 16 % 16 = 0 := by omega
    simp only [b64EncodeBytes, b64DecodeBytes, h1, h2]
    simp only [if_pos rfl, h3, and_true, List.nil_eq, true_and, if_true]
    simp only [Option.some.injEq, List.cons.injEq, and_true]
    omega
  | [a, b], h => by
    have ha : a < 256 := h a (by simp)
    have hb : b < 256 := h b (by simp)
    have h1 := b64Val_b64AlphaNat (a / 4) (by omega)
    have h2 := b64Val_b64AlphaNat (a % 4 * 16 + b / 16) (by omega)
    have h3 := b64Val_b64AlphaNat (b % 16 * 4) (by omega)
    have hne := b64AlphaNat_ne_61 (b % 16 * 4) (by omega)
    have h4 : b % 16 * 4 % 4 = 0 := by omega
    simp only [b64EncodeBytes, b64DecodeBytes, h1, h2, h3, if_neg hne]
    simp only [if_pos rfl, h4, and_true, true_and, if_true]
    simp only [Option.some.injEq, List.cons.injEq, and_true]
    constructor <;> omega
  | a :: b :: c :: rest, h => by
    have ha : a < 256 := h a (by simp)
    have hb : b < 256 := h b (by simp)
    have hc : c < 256 := h c (by simp)
    have hrest : IsBytes rest := fun x hx => h x (by simp [hx])
    have h1 := b64Val_b64AlphaNat (a / 4) (by omega)
    have h2 := b64Val_b64AlphaNat (a % 4 * 16 + b / 16) (by omega)
    have h3 := b64Val_b64AlphaNat (b % 16 * 4 + c / 64) (by omega)
    have h4 := b64Val_b64AlphaNat (c % 64) (by omega)
    have hne3 := b64AlphaNat_ne_61 (b % 16 * 4 + c / 64) (by omega)
    have hne4 := b64AlphaNat_ne_61 (c % 64) (by omega)
    have ih := b64_decode_encode rest hrest
    simp only [b64EncodeBytes, b64DecodeBytes, h1, h2, h3, h4, if_neg hne3, if_neg hne4, ih]
    simp only [Option.some.injEq, List.cons.injEq, and_true]
    refine ⟨by omega, by omega, by omega⟩

/-- Claim C9: `b64 encode` on any UTF-8 string prints its base64 encoding and
succeeds, and `b64 decode` run on that encoding succeeds and prints back exactly
the original string. -/
theorem c9_base64_roundtrip (bs : List Nat) (hb : IsBytes bs)
    (hu : validUtf8 bs = true) :
    b64EncodeRun bs = ([b64EncodeBytes bs], .ok ()) ∧
    b64DecodeRun (b64EncodeBytes bs) = ([bs], .ok ()) := by
  refine ⟨rfl, ?_⟩
  unfold b64DecodeRun
  rw [b64_decode_encode bs hb]
  simp [hu]

/-- Witness for C9 at the concrete string `"hi"`. -/
theorem c9_base64_roundtrip_witness :
    b64EncodeRun (asciiBytes "hi") = ([b64EncodeBytes (asciiBytes "hi")], .ok ()) ∧
    b64DecodeRun (b64EncodeBytes (asciiBytes "hi")) = ([asciiBytes "hi"], .ok ()) :=
  c9_base64_roundtrip (asciiBytes "hi")
    (by show ∀ b ∈ asciiBytes "hi", b < 256; decide) (by decide)

/-- Unfolding `linesGo` at a non-newline byte. -/
theorem linesGo_cons_ne (acc : List Nat) (b : Nat) (rest : List Nat) (hb : b ≠ 10) :
    linesGo acc (b :: rest) = linesGo (b :: acc) rest := by
  simp [linesGo, hb]

/-- Unfolding `linesGo` at a newline byte: the pending line is emitted, one
trailing carriage return stripped. -/
theorem linesGo_cons_nl (acc rest : List Nat) :
    linesGo acc (10 :: rest) =
      (if acc.head? = some 13 then acc.tail else acc).reverse :: linesGo [] rest := by
  simp [linesGo]

/-- The function `linesGo` returns at least one line unless both the input and the pending
line are exhausted. -/
theorem linesGo_ne_nil : ∀ (cs acc : List Nat), cs ≠ [] ∨ acc ≠ [] → linesGo acc cs ≠ []
  | [], [], h => by simp at h
  | [], _ :: _, _ => by simp [linesGo]
  | b :: rest, acc, _ => by
    by_cases hb : b = 10
    · subst hb
      rw [linesGo_cons_nl]
      simp
    · rw [linesGo_cons_ne _ _ _ hb]
      exact linesGo_ne_nil rest (b :: acc) (.inr (by simp))

/-- Unfolding `joinLF` on a list of two or more lines. -/
theorem joinLF_cons (l : List Nat) (L : List (List Nat)) (hL : L ≠ []) :
    joinLF (l :: L) = l ++ 10 :: joinLF L := by
  cases L with
  | nil => exact absurd rfl hL
  | cons x xs => rfl

/-- For carriage-return-free input ending in a newline, joining the collected
lines with newlines and re-appending one final newline restores the input. -/
theorem joinLF_linesGo_lf : ∀ (cs acc : List Nat), 13 ∉ cs → 13 ∉ acc →
    cs.getLast? = some 10 → joinLF (linesGo acc cs) ++ [10] = acc.reverse ++ cs
  | [], _, _, _, hlast => by simp at hlast
  | b :: rest, acc, hcs, hacc, hlast => by
    by_cases hb : b = 10
    · subst hb
      rw [linesGo_cons_nl]
      have hhd : ¬acc.head? = some 13 := by
        cases acc with
        | nil => simp
        | cons a t =>
          simp only [List.head?_cons, Option.some.injEq]
          intro h
          exact hacc (by simp [h])
      rw [if_neg hhd]
      rcases eq_or_ne rest [] with hr | hr
      · subst hr
        simp [linesGo, joinLF]
      · have hL := linesGo_ne_nil rest [] (.inl hr)
        rw [joinLF_cons _ _ hL]
        have hlast' : rest.getLast? = some 10 := by
          cases rest with
          | nil => exact absurd rfl hr
          | cons x xs => rw [List.getLast?_cons_cons] at hlast; exact hlast
        have ih := joinLF_linesGo_lf rest []
          (fun hm => hcs (List.mem_cons_of_mem _ hm)) (by simp) hlast'
        simp only [List.reverse_nil, List.nil_append] at ih
        rw [List.append_assoc]
        congr 1
        simp only [List.cons_append]
        rw [ih]
    · have hb13 : b ≠ 13 := fun h => hcs (h ▸ List.mem_cons_self ..)
      rw [linesGo_cons_ne _ _ _ hb]
      have hr : rest ≠ [] := by
        intro h
        subst h
        rw [List.getLast?_singleton] at hlast
        exact hb (Option.some.inj hlast)
      have hlast' : rest.getLast? = some 10 := by
        cases rest with
        | nil => exact absurd rfl hr
        | cons x xs => rw [List.getLast?_cons_cons] at hlast; exact hlast
      have ih := joinLF_linesGo_lf rest (b :: acc)
        (fun hm => hcs (List.mem_cons_of_mem _ hm))
        (by
          intro hm
          rcases List.mem_cons.mp hm with h | h
          · exact hb13 h.symm
          · exact hacc h)
        hlast'
      rw [ih]
      simp [List.reverse_cons, List.append_assoc]

/-- The function `linesGo` consumes one newline-terminated chunk as a single line, stripping
one trailing carriage return. -/
theorem linesGo_chunk : ∀ (l acc rest : List Nat), 10 ∉ l →
    linesGo acc (l ++ 10 :: rest) =
      (if (l.reverse ++ acc).head? = some 13 then (l.reverse ++ acc).tail
        else l.reverse ++ acc).reverse :: linesGo [] rest
  | [], acc, rest, _ => by simp [linesGo_cons_nl]
  | c :: l', acc, rest, hl => by
    have hc : c ≠ 10 := fun h => hl (h ▸ List.mem_cons_self ..)
    rw [List.cons_append, linesGo_cons_ne _ _ _ hc,
      linesGo_chunk l' (c :: acc) rest (fun hm => hl (List.mem_cons_of_mem _ hm))]
    have heq : l'.reverse ++ c :: acc = (c :: l').reverse ++ acc := by
      simp
    rw [heq]

/-- A newline-terminated line free of carriage returns is collected verbatim. -/
theorem linesGo_line_lf (l rest : List Nat) (h10 : 10 ∉ l) (h13 : 13 ∉ l) :
    linesGo [] (l ++ 10 :: rest) = l :: linesGo [] rest := by
  rw [linesGo_chunk l [] rest h10]
  have hhd : ¬(l.reverse ++ []).head? = some 13 := by
    simp only [List.append_nil, List.head?_reverse]
    intro h
    exact h13 (List.mem_of_mem_getLast? (by simp [h, Option.mem_def]))
  rw [if_neg hhd]
  simp

/-- A CRLF-terminated line is collected with the carriage return stripped. -/
theorem linesGo_line_crlf (l rest : List Nat) (h10 : 10 ∉ l) :
    linesGo [] ((l ++ [13]) ++ 10 :: rest) = l :: linesGo [] rest := by
  rw [linesGo_chunk (l ++ [13]) [] rest (by simp [h10])]
  have heq : (l ++ [13]).reverse ++ ([] : List Nat) = 13 :: l.reverse := by simp
  rw [heq]
  simp

/-- Concatenating newline-terminated lines and resolving them yields the lines
joined with single newlines (the final newline is gone). -/
theorem joinLF_linesGo_lf_flatten : ∀ ls : List (List Nat),
    (∀ l ∈ ls, 10 ∉ l ∧ 13 ∉ l) →
    joinLF (linesGo [] ((ls.map (fun l => l ++ [10])).flatten)) = joinLF ls
  | [], _ => rfl
  | l :: ls', h => by
    have h1 := h l (List.mem_cons_self ..)
    have hrec : ∀ x ∈ ls', 10 ∉ x ∧ 13 ∉ x := fun x hx => h x (List.mem_cons_of_mem _ hx)
    rw [List.map_cons, List.flatten_cons, List.append_assoc, List.singleton_append,
      linesGo_line_lf l _ h1.1 h1.2]
    rcases eq_or_ne ls' [] with he | he
    · subst he
      simp [linesGo, joinLF]
    · have hX : ((ls'.map (fun l => l ++ [10])).flatten) ≠ [] := by
        cases ls' with
        | nil => exact absurd rfl he
        | cons y ys => simp
      have hL := linesGo_ne_nil _ [] (.inl hX)
      rw [joinLF_cons _ _ hL, joinLF_cons _ _ he, joinLF_linesGo_lf_flatten ls' hrec]

/-- Concatenating CRLF-terminated lines and resolving them also yields the lines
joined with single newlines: every CRLF becomes a lone LF. -/
theorem joinLF_linesGo_crlf_flatten : ∀ ls : List (List Nat),
    (∀ l ∈ ls, 10 ∉ l ∧ 13 ∉ l) →
    joinLF (linesGo [] ((ls.map (fun l => l ++ [13, 10])).flatten)) = joinLF ls
  | [], _ => rfl
  | l :: ls', h => by
    have h1 := h l (List.mem_cons_self ..)
    have hrec : ∀ x ∈ ls', 10 ∉ x ∧ 13 ∉ x := fun x hx => h x (List.mem_cons_of_mem _ hx)
    have hsplit : (l ++ [13, 10]) ++ ((ls'.map (fun l => l ++ [13, 10])).flatten) =
        (l ++ [13]) ++ 10 :: ((ls'.map (fun l => l ++ [13, 10])).flatten) := by
      simp
    rw [List.map_cons, List.flatten_cons, hsplit, linesGo_line_crlf l _ h1.1]
    rcases eq_or_ne ls' [] with he | he
    · subst he
      simp [linesGo, joinLF]
    · have hX : ((ls'.map (fun l => l ++ [13, 10])).flatten) ≠ [] := by
        cases ls' with
        | nil => exact absurd rfl he
        | cons y ys => simp
      have hL := linesGo_ne_nil _ [] (.inl hX)
      rw [joinLF_cons _ _ hL, joinLF_cons _ _ he, joinLF_linesGo_crlf_flatten ls' hrec]

/-- Claim C10: piped-input resolution is not byte-preserving. For
carriage-return-free piped bytes ending in a newline, the resolved string is the
input with its final newline removed (resolved ++ "\n" = input); and
CRLF-terminated lines resolve exactly as LF-terminated lines do — to the lines
joined with single LF bytes — so every CRLF line ending becomes a lone LF. -/
theorem c10_piped_not_byte_preserving :
    (∀ d : List Nat, 13 ∉ d → d.getLast? = some 10 → resolvePiped d ++ [10] = d) ∧
    (∀ ls : List (List Nat), (∀ l ∈ ls, 10 ∉ l ∧ 13 ∉ l) →
      resolvePiped ((ls.map (fun l => l ++ [13, 10])).flatten) = joinLF ls ∧
      resolvePiped ((ls.map (fun l => l ++ [13, 10])).flatten) =
        resolvePiped ((ls.map (fun l => l ++ [10])).flatten)) := by
  constructor
  · intro d h13 hlast
    have h := joinLF_linesGo_lf d [] h13 (by simp) hlast
    simpa [resolvePiped, rustLines] using h
  · intro ls h
    have hcr := joinLF_linesGo_crlf_flatten ls h
    have hlf := joinLF_linesGo_lf_flatten ls h
    constructor
    · simpa [resolvePiped, rustLines] using hcr
    · show joinLF (linesGo [] _) = joinLF (linesGo [] _)
      rw [hcr, hlf]

/-- Witness for C10 at concrete inputs: `"hi\n"` loses its final newline, and
`"a\r\nb\r\n"` resolves identically to `"a\nb\n"`. -/
theorem c10_piped_not_byte_preserving_witness :
    resolvePiped (asciiBytes "hi\n") ++ [10] = asciiBytes "hi\n" ∧
    resolvePiped ((([asciiBytes "a", asciiBytes "b"]).map (fun l => l ++ [13, 10])).flatten) =
      resolvePiped ((([asciiBytes "a", asciiBytes "b"]).map (fun l => l ++ [10])).flatten) :=
  ⟨c10_piped_not_byte_preserving.1 (asciiBytes "hi\n") (by decide) (by decide),
    (c10_piped_not_byte_preserving.2 [asciiBytes "a", asciiBytes "b"] (by decide)).2⟩

end Devstuff
